import Mathlib

/-!
# Verification of the firefly-tools request execution engine

Shallow embedding of `src/client/firefly-client.ts` (the request execution
engine: rate limiting, timeout signal, retry loop, error classification) and
of `src/tools/category-importer.ts` (the bulk category importer loop).

Modelling conventions:
* Times (`Date.now()` values, deadlines) are `Int` milliseconds; an ideal
  clock advances exactly by the slept/awaited durations.
* The network environment of one `execute` call is a function
  `env : Nat → FetchOutcome` giving the result of the `fetch` on attempt `i`,
  plus `dur : Nat → Nat`, the wall-clock time attempt `i` consumes.
* A JSON body that fails to parse is `Option.none`; a parsed body is a
  `JsonBody` exposing the only field the engine reads (`message`) plus an
  opaque `raw` identity for the rest of the payload.
* Thrown JS exceptions are the `FireflyError` inductive: `api` mirrors the
  `FireflyApiError` class (message, status, response), `err` mirrors every
  other `Error` (fetch network failures, abort/timeout errors, JSON
  `SyntaxError`s).
-/

/-- The fields of `AppConfig.firefly` the engine reads:
`timeout`, `retryAttempts`, `retryDelay` (all in ms / counts). -/
structure FireflyConfig where
  timeout : Nat
  retryAttempts : Nat
  retryDelay : Nat
deriving Repr, DecidableEq

/-- A successfully parsed JSON body.  The engine only ever reads the
`message` field (when treating the body as an `ApiErrorResponse`); `raw`
stands for the identity of the rest of the payload. -/
structure JsonBody where
  message : Option String
  raw : String
deriving Repr, DecidableEq

/-- A thrown error: `api` is the `FireflyApiError` subclass carrying
`message`, `status` and the parsed/synthesized `response` body; `err` is any
other JS `Error` (network failure, abort on timeout, JSON decode failure). -/
inductive FireflyError where
  | api (message : String) (status : Nat) (response : JsonBody)
  | err (message : String)
deriving Repr, DecidableEq

/-- What the network does on one `fetch` attempt: either the promise rejects
(connection refused, DNS failure, abort on timeout expiry — no HTTP status
exists), or an HTTP response arrives with a status, a status text and a body
that either parses as JSON (`some`) or does not (`none`). -/
inductive FetchOutcome where
  | netFail (msg : String)
  | resp (status : Nat) (statusText : String) (body : Option JsonBody)
deriving Repr, DecidableEq

/-- `Response.ok` of the fetch API: status in [200, 300). -/
def responseOk (status : Nat) : Bool :=
  200 ≤ status && status < 300

/-- JS `errorData.message || fallback`: the fallback is used when `message`
is absent (`undefined`) or the empty string (both falsy). -/
def jsOr (s : Option String) (fallback : String) : String :=
  match s with
  | some m => if m = "" then fallback else m
  | none => fallback

/-- The synthesized `"HTTP <status>: <statusText>"` message. -/
def httpFallbackMessage (status : Nat) (statusText : String) : String :=
  "HTTP " ++ toString status ++ ": " ++ statusText

/-- Stand-in for the `SyntaxError` message thrown by `response.json()` on a
success-status response whose body is not valid JSON. -/
def jsonDecodeFailMessage : String :=
  "SyntaxError: unexpected end of JSON input"

/-- `parseErrorResponse`: try to parse the failed response's body as JSON;
on failure return `{ message: "HTTP <status>: <statusText>" }`. -/
def parseErrorResponse (status : Nat) (statusText : String)
    (body : Option JsonBody) : JsonBody :=
  match body with
  | some b => b
  | none => { message := some (httpFallbackMessage status statusText), raw := "" }

/-- Result of the `try` block of one loop iteration: either the decoded
payload is returned, or an error is thrown into the `catch`. -/
inductive AttemptResult where
  | success (data : JsonBody)
  | failure (e : FireflyError)
deriving Repr, DecidableEq

/-- One iteration's `try` block, given the fetch outcome.  Returns the
result together with the increment applied to `requestCount`: the source
increments the counter immediately after `await fetch(...)` resolves, so a
rejected fetch (network failure / timeout abort) contributes `0` while any
received HTTP response contributes `1` — before the ok-check, the body
parse and the error classification. -/
def runAttempt (o : FetchOutcome) : AttemptResult × Nat :=
  match o with
  | .netFail msg => (.failure (.err msg), 0)
  | .resp status statusText body =>
    if responseOk status then
      match body with
      | some b => (.success b, 1)
      | none => (.failure (.err jsonDecodeFailMessage), 1)
    else
      let errorData := parseErrorResponse status statusText body
      (.failure (.api (jsOr errorData.message (httpFallbackMessage status statusText))
          status errorData), 1)

/-- The guard of line 138 of the source: `error instanceof FireflyApiError
&& error.status >= 400 && error.status < 500` — do not retry client errors. -/
def isClientError (e : FireflyError) : Bool :=
  match e with
  | .api _ status _ => 400 ≤ status && status < 500
  | .err _ => false

/-- The `Outcome` of an `execute` call: decoded payload or thrown error. -/
inductive Outcome where
  | ok (data : JsonBody)
  | fail (e : FireflyError)
deriving Repr, DecidableEq

/-- State threaded through the retry loop.  `requestCount` and `now` mirror
the program (`this.requestCount` and the ideal clock); `attemptTimes`,
`dispatched` and `backoffWaits` are observational instrumentation recording,
in order, the dispatch time of each `fetch`, its outcome, and each backoff
delay slept between attempts. -/
structure RetryState where
  requestCount : Nat
  now : Int
  attemptTimes : List Int
  dispatched : List FetchOutcome
  backoffWaits : List Nat
deriving Repr, DecidableEq

/-- The body of `executeWithRetry`'s `for` loop, recursing over the list of
remaining attempt indices (the canonical call passes
`List.range (retryAttempts + 1)`, i.e. `attempt = 0 .. retryAttempts`).
Mirrors the source: dispatch the fetch; on a response increment the counter;
on a success status parse and return the body; on an error status throw the
classified `FireflyApiError`; in the catch, rethrow 4xx API errors
immediately, otherwise sleep `retryDelay * 2 ^ attempt` when
`attempt < retryAttempts` and continue; after the loop, throw the last
error (or the defensive generic error when none was recorded). -/
def retryGo (cfg : FireflyConfig) (env : Nat → FetchOutcome) (dur : Nat → Nat) :
    List Nat → RetryState → Option FireflyError → Outcome × RetryState
  | [], st, lastError =>
    (.fail (lastError.getD (.err "Request failed after all retry attempts")), st)
  | attempt :: rest, st, lastError =>
    let o := env attempt
    let st1 : RetryState :=
      { st with attemptTimes := st.attemptTimes ++ [st.now],
                dispatched := st.dispatched ++ [o] }
    let r := runAttempt o
    let st2 : RetryState :=
      { st1 with requestCount := st1.requestCount + r.2,
                 now := st1.now + (dur attempt : Int) }
    match r.1 with
    | .success d => (.ok d, st2)
    | .failure e =>
      if isClientError e then (.fail e, st2)
      else if attempt < cfg.retryAttempts then
        let delay := cfg.retryDelay * 2 ^ attempt
        let st3 : RetryState :=
          { st2 with now := st2.now + (delay : Int),
                     backoffWaits := st2.backoffWaits ++ [delay] }
        retryGo cfg env dur rest st3 (some e)
      else
        retryGo cfg env dur rest st2 (some e)

/-- `executeWithRetry`: run the loop for `attempt = 0 .. retryAttempts`
with no last error recorded. -/
def executeWithRetry (cfg : FireflyConfig) (env : Nat → FetchOutcome)
    (dur : Nat → Nat) (st : RetryState) : Outcome × RetryState :=
  retryGo cfg env dur (List.range (cfg.retryAttempts + 1)) st none

/-- `handleRateLimit`'s wait: `elapsed = now - lastRequestTime`; sleep
`minInterval - elapsed` when `elapsed < minInterval` (100 ms), else 0. -/
def rateLimitWait (lastRequestTime now : Int) : Int :=
  let timeSinceLastRequest := now - lastRequestTime
  let minInterval : Int := 100
  if timeSinceLastRequest < minInterval then minInterval - timeSinceLastRequest
  else 0

/-- The per-instance session state: `this.lastRequestTime` and
`this.requestCount`. -/
structure ClientState where
  lastRequestTime : Int
  requestCount : Nat
deriving Repr, DecidableEq

/-- Everything observable about one `execute` (`request`) call: its outcome,
the session state afterwards, the rate-limit wait, the time at which the
gate passed (= `Date.now()` stored into `lastRequestTime`), the absolute
deadline of the `AbortSignal.timeout(timeout)` created with the request
configuration, and the instrumentation lists of the retry loop. -/
structure ExecResult where
  outcome : Outcome
  finalState : ClientState
  rateWait : Int
  gateTime : Int
  signalDeadline : Int
  attemptTimes : List Int
  dispatched : List FetchOutcome
  backoffWaits : List Nat
  finalNow : Int
deriving Repr, DecidableEq

/-- The `request` method: rate-limit gate (which updates
`lastRequestTime` to the post-wait clock, once, before the retry loop),
then construction of the request configuration — at which point
`AbortSignal.timeout(timeout)` starts its timer, giving the absolute
deadline `gateTime + timeout` shared by every attempt of this call — then
`executeWithRetry`. -/
def request (cfg : FireflyConfig) (st : ClientState) (now : Int)
    (env : Nat → FetchOutcome) (dur : Nat → Nat) : ExecResult :=
  let w := rateLimitWait st.lastRequestTime now
  let gate := now + w
  let deadline := gate + (cfg.timeout : Int)
  let st0 : RetryState :=
    { requestCount := st.requestCount, now := gate,
      attemptTimes := [], dispatched := [], backoffWaits := [] }
  let r := executeWithRetry cfg env dur st0
  { outcome := r.1,
    finalState := { lastRequestTime := gate, requestCount := r.2.requestCount },
    rateWait := w, gateTime := gate, signalDeadline := deadline,
    attemptTimes := r.2.attemptTimes, dispatched := r.2.dispatched,
    backoffWaits := r.2.backoffWaits, finalNow := r.2.now }

/-- `testConnection`: issue `GET /api/v1/about` through `request`; on any
thrown error, log `"API connection test failed: ..."` and return `false`;
on success return `true`.  The third component is the list of
`console.error` lines emitted. -/
def testConnection (cfg : FireflyConfig) (st : ClientState) (now : Int)
    (env : Nat → FetchOutcome) (dur : Nat → Nat) :
    Bool × ClientState × List String :=
  let r := request cfg st now env dur
  match r.outcome with
  | .ok _ => (true, r.finalState, [])
  | .fail e =>
    let m := match e with
      | .api msg _ _ => msg
      | .err msg => msg
    (false, r.finalState, ["API connection test failed: " ++ m])

/-- `getStats`: read-only view of the session counters. -/
def getStats (st : ClientState) : Nat × Int :=
  (st.requestCount, st.lastRequestTime)

/-- One operation issued against one engine instance: an `execute` call
(any domain accessor delegating to `request`), the connectivity probe, or a
stats query. -/
inductive ClientOp where
  | execute (now : Int) (env : Nat → FetchOutcome) (dur : Nat → Nat)
  | probe (now : Int) (env : Nat → FetchOutcome) (dur : Nat → Nat)
  | stats

/-- The session-state transition of each operation. `getStats` reads without
writing, so `stats` is the identity. -/
def stepClient (cfg : FireflyConfig) (st : ClientState) : ClientOp → ClientState
  | .execute now env dur => (request cfg st now env dur).finalState
  | .probe now env dur => (testConnection cfg st now env dur).2.1
  | .stats => st

/-- Summary counters of `importCategories` in the category importer. -/
structure ImportSummary where
  created : Nat
  errors : Nat
deriving Repr, DecidableEq

/-- One iteration of the importer's `for` loop, given the outcome of the
`createCategory` call for the item: success increments `created`, a thrown
error is caught, logged and increments `errors`; the loop then continues
with the next item either way. -/
def importStep (acc : ImportSummary) (o : Outcome) : ImportSummary :=
  match o with
  | .ok _ => { acc with created := acc.created + 1 }
  | .fail _ => { acc with errors := acc.errors + 1 }

/-- `importCategories`, abstracted over the per-item `createCategory`
outcomes: fold the loop body over every item of the batch. -/
def importCategories (results : List Outcome) : ImportSummary :=
  results.foldl importStep { created := 0, errors := 0 }

/-- Whether a fetch outcome is an HTTP response (as opposed to a rejected
fetch promise). -/
def isResp (o : FetchOutcome) : Bool :=
  match o with
  | .resp _ _ _ => true
  | .netFail _ => false

/-- The error thrown by the attempt on outcome `o` (junk on success). -/
def fetchError (o : FetchOutcome) : FireflyError :=
  match (runAttempt o).1 with
  | .failure e => e
  | .success _ => .err ""

/-- Whether the attempt on outcome `o` throws at all. -/
def fetchFails (o : FetchOutcome) : Bool :=
  match (runAttempt o).1 with
  | .failure _ => true
  | .success _ => false

/-- A retryable failure: the attempt throws and the error is not a 4xx
`FireflyApiError` (network failures, timeouts, 5xx API errors, decode
failures). -/
def retryableOutcome (o : FetchOutcome) : Bool :=
  fetchFails o && !(isClientError (fetchError o))

/-! ## General lemmas about the retry loop -/

lemma runAttempt_snd (o : FetchOutcome) :
    (runAttempt o).2 = if isResp o then 1 else 0 := by
  cases o with
  | netFail m => rfl
  | resp s tx b =>
    simp only [runAttempt, isResp]
    split <;> first | rfl | (cases b <;> rfl)

lemma fetchFails_runAttempt {o : FetchOutcome} (h : fetchFails o = true) :
    (runAttempt o).1 = .failure (fetchError o) := by
  unfold fetchFails at h
  cases hr : (runAttempt o).1 with
  | success d => rw [hr] at h; simp at h
  | failure e => simp [fetchError, hr]

lemma filterMap_if_map {α β : Type} (p : α → Prop) [DecidablePred p] (f : α → β) :
    ∀ l : List α, (∀ a ∈ l, p a) →
      l.filterMap (fun a => if p a then some (f a) else none) = l.map f := by
  intro l
  induction l with
  | nil => intro _; rfl
  | cons a rest ih =>
    intro h
    have ha : p a := h a (List.mem_cons_self a rest)
    simp only [List.filterMap_cons, List.map_cons, if_pos ha]
    rw [ih (fun x hx => h x (List.mem_cons_of_mem a hx))]

/-- Frame lemma for the retry loop: it only appends to the instrumentation
lists, the counter grows by exactly the number of dispatched attempts whose
fetch produced an HTTP response, the first newly dispatched attempt (if any)
happens at the entry clock, and no attempt is dispatched before the entry
clock. -/
lemma retryGo_frame (cfg : FireflyConfig) (env : Nat → FetchOutcome) (dur : Nat → Nat) :
    ∀ (attempts : List Nat) (st : RetryState) (le : Option FireflyError),
      ∃ nd nt,
        (retryGo cfg env dur attempts st le).2.dispatched = st.dispatched ++ nd ∧
        (retryGo cfg env dur attempts st le).2.attemptTimes = st.attemptTimes ++ nt ∧
        (retryGo cfg env dur attempts st le).2.requestCount
          = st.requestCount + nd.countP (fun o => isResp o) ∧
        nt.head? = (attempts.head?.map fun _ => st.now) ∧
        (∀ t ∈ nt, st.now ≤ t) := by
  intro attempts
  induction attempts with
  | nil =>
    intro st le
    exact ⟨[], [], by simp [retryGo], by simp [retryGo], by simp [retryGo], by simp, by simp⟩
  | cons a rest ih =>
    intro st le
    have hk := runAttempt_snd (env a)
    cases hra : runAttempt (env a) with
    | mk res k =>
      rw [hra] at hk
      simp only at hk
      cases res with
      | success d =>
        refine ⟨[env a], [st.now], ?_, ?_, ?_, ?_, ?_⟩
        · simp [retryGo, hra]
        · simp [retryGo, hra]
        · simp [retryGo, hra, hk, List.countP_singleton]
        · simp
        · intro t ht
          simp at ht
          simp [ht]
      | failure e =>
        by_cases hce : isClientError e = true
        · refine ⟨[env a], [st.now], ?_, ?_, ?_, ?_, ?_⟩
          · simp [retryGo, hra, hce]
          · simp [retryGo, hra, hce]
          · simp [retryGo, hra, hce, hk, List.countP_singleton]
          · simp
          · intro t ht
            simp at ht
            simp [ht]
        · by_cases hlt : a < cfg.retryAttempts
          · obtain ⟨nd, nt, h1, h2, h3, h4, h5⟩ :=
              ih { st with
                    attemptTimes := st.attemptTimes ++ [st.now],
                    dispatched := st.dispatched ++ [env a],
                    requestCount := st.requestCount + k,
                    now := st.now + (dur a : Int) + (cfg.retryDelay * 2 ^ a : Nat),
                    backoffWaits := st.backoffWaits ++ [cfg.retryDelay * 2 ^ a] }
                 (some e)
            refine ⟨env a :: nd, st.now :: nt, ?_, ?_, ?_, ?_, ?_⟩
            · simp only [retryGo, hra, hce, hlt, Bool.false_eq_true, not_false_eq_true,
                if_neg, if_pos]
              rw [h1]
              simp
            · simp only [retryGo, hra, hce, hlt, Bool.false_eq_true, not_false_eq_true,
                if_neg, if_pos]
              rw [h2]
              simp
            · simp only [retryGo, hra, hce, hlt, Bool.false_eq_true, not_false_eq_true,
                if_neg, if_pos]
              rw [h3]
              dsimp only
              rw [hk]
              simp only [List.countP_cons]
              omega
            · simp
            · intro t ht
              rcases List.mem_cons.mp ht with h | h
              · simp [h]
              · have h6 := h5 t h
                dsimp only at h6
                omega
          · obtain ⟨nd, nt, h1, h2, h3, h4, h5⟩ :=
              ih { st with
                    attemptTimes := st.attemptTimes ++ [st.now],
                    dispatched := st.dispatched ++ [env a],
                    requestCount := st.requestCount + k,
                    now := st.now + (dur a : Int) }
                 (some e)
            refine ⟨env a :: nd, st.now :: nt, ?_, ?_, ?_, ?_, ?_⟩
            · simp only [retryGo, hra, hce, hlt, Bool.false_eq_true, not_false_eq_true,
                if_neg]
              rw [h1]
              simp
            · simp only [retryGo, hra, hce, hlt, Bool.false_eq_true, not_false_eq_true,
                if_neg]
              rw [h2]
              simp
            · simp only [retryGo, hra, hce, hlt, Bool.false_eq_true, not_false_eq_true,
                if_neg]
              rw [h3]
              dsimp only
              rw [hk]
              simp only [List.countP_cons]
              omega
            · simp
            · intro t ht
              rcases List.mem_cons.mp ht with h | h
              · simp [h]
              · have h6 := h5 t h
                dsimp only at h6
                omega

/-- Under attempts that all fail retryably, the loop dispatches every
remaining attempt, sleeps the exponential-backoff delay for every attempt
index below `retryAttempts`, and ends with the error of the last attempt
(or the recorded/last-resort error when no attempt remains). -/
lemma retryGo_allRetry (cfg : FireflyConfig) (env : Nat → FetchOutcome) (dur : Nat → Nat) :
    ∀ (attempts : List Nat) (st : RetryState) (le : Option FireflyError),
      (∀ a ∈ attempts, retryableOutcome (env a) = true) →
      (retryGo cfg env dur attempts st le).1
          = .fail (attempts.foldl (fun _ a => fetchError (env a))
              (le.getD (.err "Request failed after all retry attempts"))) ∧
      (retryGo cfg env dur attempts st le).2.attemptTimes.length
          = st.attemptTimes.length + attempts.length ∧
      (retryGo cfg env dur attempts st le).2.backoffWaits
          = st.backoffWaits ++ attempts.filterMap
              (fun a => if a < cfg.retryAttempts
                then some (cfg.retryDelay * 2 ^ a) else none) := by
  intro attempts
  induction attempts with
  | nil =>
    intro st le h
    refine ⟨?_, ?_, ?_⟩ <;> simp [retryGo]
  | cons a rest ih =>
    intro st le h
    have hha : retryableOutcome (env a) = true := h a (List.mem_cons_self a rest)
    have hrest : ∀ x ∈ rest, retryableOutcome (env x) = true :=
      fun x hx => h x (List.mem_cons_of_mem a hx)
    have hff : fetchFails (env a) = true := by
      unfold retryableOutcome at hha
      exact (Bool.and_eq_true_iff.mp hha).1
    have hnc : isClientError (fetchError (env a)) = false := by
      unfold retryableOutcome at hha
      have := (Bool.and_eq_true_iff.mp hha).2
      simpa using this
    have hfail := fetchFails_runAttempt hff
    cases hra : runAttempt (env a) with
    | mk res k =>
      rw [hra] at hfail
      simp only at hfail
      subst hfail
      by_cases hlt : a < cfg.retryAttempts
      · obtain ⟨ih1, ih2, ih3⟩ :=
          ih { st with
                attemptTimes := st.attemptTimes ++ [st.now],
                dispatched := st.dispatched ++ [env a],
                requestCount := st.requestCount + k,
                now := st.now + (dur a : Int) + (cfg.retryDelay * 2 ^ a : Nat),
                backoffWaits := st.backoffWaits ++ [cfg.retryDelay * 2 ^ a] }
             (some (fetchError (env a))) hrest
      
        refine ⟨?_, ?_, ?_⟩
        · simp only [retryGo, hra, hnc, hlt, Bool.false_eq_true, not_false_eq_true,
            if_neg, if_pos]
          rw [ih1]
          simp
        · simp only [retryGo, hra, hnc, hlt, Bool.false_eq_true, not_false_eq_true,
            if_neg, if_pos]
          rw [ih2]
          dsimp only
          simp
          omega
        · simp only [retryGo, hra, hnc, hlt, Bool.false_eq_true, not_false_eq_true,
            if_neg, if_pos]
          rw [ih3]
          dsimp only
          simp [List.filterMap_cons, hlt]
      · obtain ⟨ih1, ih2, ih3⟩ :=
          ih { st with
                attemptTimes := st.attemptTimes ++ [st.now],
                dispatched := st.dispatched ++ [env a],
                requestCount := st.requestCount + k,
                now := st.now + (dur a : Int) }
             (some (fetchError (env a))) hrest
        refine ⟨?_, ?_, ?_⟩
        · simp only [retryGo, hra, hnc, hlt, Bool.false_eq_true, not_false_eq_true,
            if_neg]
          rw [ih1]
          simp
        · simp only [retryGo, hra, hnc, hlt, Bool.false_eq_true, not_false_eq_true,
            if_neg]
          rw [ih2]
          dsimp only
          simp
          omega
        · simp only [retryGo, hra, hnc, hlt, Bool.false_eq_true, not_false_eq_true,
            if_neg]
          rw [ih3]
          dsimp only
          simp [List.filterMap_cons, hlt]

/-! ## Request-level corollaries -/

/-- The session counter after an `execute` call equals its old value plus
the number of dispatched attempts whose fetch yielded an HTTP response. -/
lemma request_count_eq (cfg : FireflyConfig) (st : ClientState) (now : Int)
    (env : Nat → FetchOutcome) (dur : Nat → Nat) :
    (request cfg st now env dur).finalState.requestCount
      = st.requestCount
        + ((request cfg st now env dur).dispatched.countP (fun o => isResp o)) := by
  obtain ⟨nd, nt, h1, h2, h3, h4, h5⟩ :=
    retryGo_frame cfg env dur (List.range (cfg.retryAttempts + 1))
      { requestCount := st.requestCount, now := now + rateLimitWait st.lastRequestTime now,
        attemptTimes := [], dispatched := [], backoffWaits := [] } none
  simp only [request, executeWithRetry]
  rw [h3, h1]
  simp

/-- The first attempt of an `execute` call is dispatched exactly at the
gate time (the value stored into `lastRequestTime`). -/
lemma request_head_time (cfg : FireflyConfig) (st : ClientState) (now : Int)
    (env : Nat → FetchOutcome) (dur : Nat → Nat) :
    (request cfg st now env dur).attemptTimes.head?
      = some (request cfg st now env dur).gateTime := by
  obtain ⟨nd, nt, h1, h2, h3, h4, h5⟩ :=
    retryGo_frame cfg env dur (List.range (cfg.retryAttempts + 1))
      { requestCount := st.requestCount, now := now + rateLimitWait st.lastRequestTime now,
        attemptTimes := [], dispatched := [], backoffWaits := [] } none
  simp only [request, executeWithRetry]
  rw [h2]
  simp only [List.nil_append]
  rw [h4]
  have : (List.range (cfg.retryAttempts + 1)).head? = some 0 := by
    rw [List.range_succ_eq_map]
    rfl
  rw [this]
  rfl

/-- No attempt of an `execute` call is dispatched before the gate time. -/
lemma request_times_ge (cfg : FireflyConfig) (st : ClientState) (now : Int)
    (env : Nat → FetchOutcome) (dur : Nat → Nat) :
    ∀ t ∈ (request cfg st now env dur).attemptTimes,
      (request cfg st now env dur).gateTime ≤ t := by
  obtain ⟨nd, nt, h1, h2, h3, h4, h5⟩ :=
    retryGo_frame cfg env dur (List.range (cfg.retryAttempts + 1))
      { requestCount := st.requestCount, now := now + rateLimitWait st.lastRequestTime now,
        attemptTimes := [], dispatched := [], backoffWaits := [] } none
  simp only [request, executeWithRetry]
  rw [h2]
  simp only [List.nil_append]
  exact h5

/-- If every attempt of the call fails retryably, the call performs
`1 + retryAttempts` attempts, sleeps the exponential backoff schedule in
full, and surfaces the failure of the last attempt. -/
lemma request_allRetry (cfg : FireflyConfig) (st : ClientState) (now : Int)
    (env : Nat → FetchOutcome) (dur : Nat → Nat)
    (h : ∀ i, i ≤ cfg.retryAttempts → retryableOutcome (env i) = true) :
    (request cfg st now env dur).outcome = .fail (fetchError (env cfg.retryAttempts)) ∧
    (request cfg st now env dur).attemptTimes.length = 1 + cfg.retryAttempts ∧
    (request cfg st now env dur).backoffWaits
      = (List.range cfg.retryAttempts).map (fun i => cfg.retryDelay * 2 ^ i) := by
  obtain ⟨h1, h2, h3⟩ :=
    retryGo_allRetry cfg env dur (List.range (cfg.retryAttempts + 1))
      { requestCount := st.requestCount, now := now + rateLimitWait st.lastRequestTime now,
        attemptTimes := [], dispatched := [], backoffWaits := [] } none
      (by
        intro a ha
        exact h a (Nat.lt_succ_iff.mp (List.mem_range.mp ha)))
  refine ⟨?_, ?_, ?_⟩
  · simp only [request, executeWithRetry]
    rw [h1]
    congr 1
    rw [List.range_succ, List.foldl_append]
    rfl
  · simp only [request, executeWithRetry]
    rw [h2]
    simp
    omega
  · simp only [request, executeWithRetry]
    rw [h3]
    simp only [List.nil_append]
    rw [List.range_succ, List.filterMap_append]
    have hlast : List.filterMap
        (fun a => if a < cfg.retryAttempts
          then some (cfg.retryDelay * 2 ^ a) else none) [cfg.retryAttempts] = [] := by
      simp
    rw [hlast, List.append_nil]
    exact filterMap_if_map (fun a => a < cfg.retryAttempts)
      (fun a => cfg.retryDelay * 2 ^ a) (List.range cfg.retryAttempts)
      (fun a ha => List.mem_range.mp ha)

/-! ## Importer lemmas -/

lemma importCategories_foldl (l : List Outcome) :
    ∀ acc : ImportSummary,
      (List.foldl importStep acc l).created
          = acc.created + (importCategories l).created ∧
      (List.foldl importStep acc l).errors
          = acc.errors + (importCategories l).errors := by
  induction l with
  | nil => intro acc; simp [importCategories]
  | cons o rest ih =>
    intro acc
    have h1 := ih (importStep acc o)
    have h2 := ih (importStep { created := 0, errors := 0 } o)
    cases o with
    | ok d =>
      simp only [importCategories, List.foldl_cons] at *
      simp only [importStep] at *
      omega
    | fail e =>
      simp only [importCategories, List.foldl_cons] at *
      simp only [importStep] at *
      omega

lemma importCategories_total (l : List Outcome) :
    (importCategories l).created + (importCategories l).errors = l.length := by
  induction l with
  | nil => rfl
  | cons o rest ih =>
    have h := importCategories_foldl rest (importStep { created := 0, errors := 0 } o)
    cases o with
    | ok d =>
      simp only [importCategories, List.foldl_cons] at *
      simp only [importStep] at *
      simp only [List.length_cons]
      omega
    | fail e =>
      simp only [importCategories, List.foldl_cons] at *
      simp only [importStep] at *
      simp only [List.length_cons]
      omega

lemma importCategories_append (xs ys : List Outcome) :
    (importCategories (xs ++ ys)).created
        = (importCategories xs).created + (importCategories ys).created ∧
    (importCategories (xs ++ ys)).errors
        = (importCategories xs).errors + (importCategories ys).errors := by
  have h := importCategories_foldl ys (importCategories xs)
  simp only [importCategories, List.foldl_append] at *
  omega

/-! ## Claim theorems -/

/-- C3: if the first dispatched attempt of an `execute` call yields an HTTP
response with status in [400, 500), the classified API error — carrying that
status and the decoded (or, for an unparseable body, synthesized) detail —
is propagated after exactly one dispatch attempt: no further attempt is
made, no backoff wait occurs, and the session request counter increases by
exactly one. -/
theorem client_error_propagates_immediately (cfg : FireflyConfig) (st : ClientState)
    (now : Int) (env : Nat → FetchOutcome) (dur : Nat → Nat)
    (s : Nat) (tx : String) (b : Option JsonBody)
    (henv : env 0 = .resp s tx b) (h4 : 400 ≤ s) (h5 : s < 500) :
    (request cfg st now env dur).outcome
        = .fail (.api (jsOr (parseErrorResponse s tx b).message (httpFallbackMessage s tx))
            s (parseErrorResponse s tx b)) ∧
    (request cfg st now env dur).attemptTimes.length = 1 ∧
    (request cfg st now env dur).backoffWaits = [] ∧
    (request cfg st now env dur).finalState.requestCount = st.requestCount + 1 := by
  have hok : responseOk s = false := by
    unfold responseOk
    simp only [Bool.and_eq_false_iff]
    right
    simp
    omega
  have hra : runAttempt (env 0)
      = (.failure (.api (jsOr (parseErrorResponse s tx b).message (httpFallbackMessage s tx))
          s (parseErrorResponse s tx b)), 1) := by
    rw [henv]
    simp only [runAttempt]
    rw [hok]
    simp
  have hce : isClientError
      (.api (jsOr (parseErrorResponse s tx b).message (httpFallbackMessage s tx))
        s (parseErrorResponse s tx b)) = true := by
    unfold isClientError
    simp
    omega
  simp only [request, executeWithRetry, List.range_succ_eq_map, retryGo, hra, hce]
  simp

/-- Witness for C3: a 403 with a decoded `{"message":"Forbidden"}` body. -/
theorem client_error_propagates_immediately_witness :
    (request ⟨30000, 2, 100⟩ ⟨0, 0⟩ 1000
        (fun _ => .resp 403 "Forbidden" (some ⟨some "Forbidden", "body"⟩))
        (fun _ => 0)).outcome
        = .fail (.api "Forbidden" 403 ⟨some "Forbidden", "body"⟩) ∧
    (request ⟨30000, 2, 100⟩ ⟨0, 0⟩ 1000
        (fun _ => .resp 403 "Forbidden" (some ⟨some "Forbidden", "body"⟩))
        (fun _ => 0)).attemptTimes.length = 1 ∧
    (request ⟨30000, 2, 100⟩ ⟨0, 0⟩ 1000
        (fun _ => .resp 403 "Forbidden" (some ⟨some "Forbidden", "body"⟩))
        (fun _ => 0)).backoffWaits = [] ∧
    (request ⟨30000, 2, 100⟩ ⟨0, 0⟩ 1000
        (fun _ => .resp 403 "Forbidden" (some ⟨some "Forbidden", "body"⟩))
        (fun _ => 0)).finalState.requestCount = 0 + 1 := by
  have h := client_error_propagates_immediately ⟨30000, 2, 100⟩ ⟨0, 0⟩ 1000
    (fun _ => .resp 403 "Forbidden" (some ⟨some "Forbidden", "body"⟩)) (fun _ => 0)
    403 "Forbidden" (some ⟨some "Forbidden", "body"⟩) rfl (by decide) (by decide)
  exact ⟨h.1, h.2.1, h.2.2.1, h.2.2.2⟩

/-- C4: when every attempt of an `execute` call fails retryably (5xx API
error, network failure, timeout, decode failure), the engine performs
exactly `1 + retryAttempts` dispatch attempts, sleeps
`retryDelay * 2 ^ attemptIndex` between consecutive attempts
(`attemptIndex = 0, 1, ...`), and surfaces the failure of the last
attempt. -/
theorem exhausted_retries_backoff_and_last_failure (cfg : FireflyConfig)
    (st : ClientState) (now : Int) (env : Nat → FetchOutcome) (dur : Nat → Nat)
    (h : ∀ i, i ≤ cfg.retryAttempts → retryableOutcome (env i) = true) :
    (request cfg st now env dur).attemptTimes.length = 1 + cfg.retryAttempts ∧
    (request cfg st now env dur).backoffWaits
        = (List.range cfg.retryAttempts).map (fun i => cfg.retryDelay * 2 ^ i) ∧
    (request cfg st now env dur).outcome = .fail (fetchError (env cfg.retryAttempts)) := by
  obtain ⟨h1, h2, h3⟩ := request_allRetry cfg st now env dur h
  exact ⟨h2, h3, h1⟩

/-- Witness for C4: three 500 responses with `retryAttempts = 2`,
`retryDelay = 100`: three attempts, waits `[100, 200]`, and the last 500
error surfaces. -/
theorem exhausted_retries_backoff_and_last_failure_witness :
    (request ⟨30000, 2, 100⟩ ⟨0, 0⟩ 1000
        (fun _ => .resp 500 "Internal Server Error" none) (fun _ => 0)).attemptTimes.length
        = 1 + 2 ∧
    (request ⟨30000, 2, 100⟩ ⟨0, 0⟩ 1000
        (fun _ => .resp 500 "Internal Server Error" none) (fun _ => 0)).backoffWaits
        = [100, 200] ∧
    (request ⟨30000, 2, 100⟩ ⟨0, 0⟩ 1000
        (fun _ => .resp 500 "Internal Server Error" none) (fun _ => 0)).outcome
        = .fail (.api "HTTP 500: Internal Server Error" 500
            ⟨some "HTTP 500: Internal Server Error", ""⟩) := by
  have h := exhausted_retries_backoff_and_last_failure ⟨30000, 2, 100⟩ ⟨0, 0⟩ 1000
    (fun _ => .resp 500 "Internal Server Error" none) (fun _ => 0) (fun i _ => rfl)
  exact ⟨h.1, h.2.1, h.2.2⟩

/-- C6: for an error-status response whose body is absent or unparseable,
classification degrades gracefully: `parseErrorResponse` synthesizes
`{ message: "HTTP <status>: <statusText>" }` and the attempt throws a
classified API error carrying that synthesized message and the response's
status code. -/
theorem unparseable_error_body_falls_back (s : Nat) (tx : String)
    (h : responseOk s = false) :
    parseErrorResponse s tx none
        = { message := some (httpFallbackMessage s tx), raw := "" } ∧
    runAttempt (.resp s tx none)
        = (.failure (.api (httpFallbackMessage s tx) s
            { message := some (httpFallbackMessage s tx), raw := "" }), 1) := by
  refine ⟨rfl, ?_⟩
  simp only [runAttempt]
  rw [h]
  simp [parseErrorResponse, jsOr]

/-- Witness for C6: a 404 with an empty (undecodable) body. -/
theorem unparseable_error_body_falls_back_witness :
    parseErrorResponse 404 "Not Found" none
        = { message := some "HTTP 404: Not Found", raw := "" } ∧
    runAttempt (.resp 404 "Not Found" none)
        = (.failure (.api "HTTP 404: Not Found" 404
            { message := some "HTTP 404: Not Found", raw := "" }), 1) := by
  have h := unparseable_error_body_falls_back 404 "Not Found" (by decide)
  exact ⟨h.1, h.2⟩

/-- C10: when every attempt of an `execute` call receives a success-status
(2xx) response whose body is not valid JSON, the decode failure is treated
as retryable — all `1 + retryAttempts` attempts run with the exponential
backoff schedule — and the surfaced failure is a plain error (never the
API-error class, so it carries no HTTP status). -/
theorem decode_failure_is_retryable_plain_error (cfg : FireflyConfig)
    (st : ClientState) (now : Int) (env : Nat → FetchOutcome) (dur : Nat → Nat)
    (h : ∀ i, i ≤ cfg.retryAttempts →
        ∃ s tx, env i = .resp s tx none ∧ responseOk s = true) :
    (request cfg st now env dur).outcome = .fail (.err jsonDecodeFailMessage) ∧
    (∀ m s b, (request cfg st now env dur).outcome ≠ .fail (.api m s b)) ∧
    (request cfg st now env dur).attemptTimes.length = 1 + cfg.retryAttempts ∧
    (request cfg st now env dur).backoffWaits
        = (List.range cfg.retryAttempts).map (fun i => cfg.retryDelay * 2 ^ i) := by
  have hr : ∀ i, i ≤ cfg.retryAttempts → retryableOutcome (env i) = true := by
    intro i hi
    obtain ⟨s, tx, he, hok⟩ := h i hi
    rw [he]
    simp only [retryableOutcome, fetchFails, fetchError, runAttempt]
    rw [hok]
    simp [isClientError]
  obtain ⟨h1, h2, h3⟩ := request_allRetry cfg st now env dur hr
  have hlast : fetchError (env cfg.retryAttempts) = .err jsonDecodeFailMessage := by
    obtain ⟨s, tx, he, hok⟩ := h cfg.retryAttempts (le_refl _)
    rw [he]
    simp only [fetchError, runAttempt]
    rw [hok]
    simp
  refine ⟨by rw [h1, hlast], ?_, h2, h3⟩
  intro m s b
  rw [h1, hlast]
  simp

/-- Witness for C10: `204 No Content` (empty body) on every attempt. -/
theorem decode_failure_is_retryable_plain_error_witness :
    (request ⟨30000, 2, 100⟩ ⟨0, 0⟩ 1000
        (fun _ => .resp 204 "No Content" none) (fun _ => 0)).outcome
        = .fail (.err jsonDecodeFailMessage) ∧
    (request ⟨30000, 2, 100⟩ ⟨0, 0⟩ 1000
        (fun _ => .resp 204 "No Content" none) (fun _ => 0)).attemptTimes.length = 1 + 2 ∧
    (request ⟨30000, 2, 100⟩ ⟨0, 0⟩ 1000
        (fun _ => .resp 204 "No Content" none) (fun _ => 0)).backoffWaits = [100, 200] := by
  have h := decode_failure_is_retryable_plain_error ⟨30000, 2, 100⟩ ⟨0, 0⟩ 1000
    (fun _ => .resp 204 "No Content" none) (fun _ => 0)
    (fun i _ => ⟨204, "No Content", rfl, rfl⟩)
  exact ⟨h.1, h.2.2.1, h.2.2.2⟩

/-- C5: the rate-limit gate: the wait is never negative; when the elapsed
time since `lastRequestTime` is below 100 ms the caller waits exactly
`100 - elapsed` ms (and otherwise does not wait); the session's
`lastRequestTime` is then set to the post-wait clock — once per `execute`
call, before the retry loop (so it equals the dispatch time of the call's
first attempt), never once per retry attempt. -/
theorem rate_limit_gate_spec (cfg : FireflyConfig) (st : ClientState) (now : Int)
    (env : Nat → FetchOutcome) (dur : Nat → Nat) :
    0 ≤ (request cfg st now env dur).rateWait ∧
    (now - st.lastRequestTime < 100 →
      (request cfg st now env dur).rateWait = 100 - (now - st.lastRequestTime)) ∧
    (100 ≤ now - st.lastRequestTime → (request cfg st now env dur).rateWait = 0) ∧
    (request cfg st now env dur).finalState.lastRequestTime
        = now + (request cfg st now env dur).rateWait ∧
    (request cfg st now env dur).attemptTimes.head?
        = some ((request cfg st now env dur).finalState.lastRequestTime) := by
  have hw : (request cfg st now env dur).rateWait = rateLimitWait st.lastRequestTime now := rfl
  refine ⟨?_, ?_, ?_, rfl, ?_⟩
  · rw [hw]
    simp only [rateLimitWait]
    split <;> omega
  · intro h
    rw [hw]
    simp only [rateLimitWait]
    split <;> omega
  · intro h
    rw [hw]
    simp only [rateLimitWait]
    split <;> omega
  · rw [request_head_time]
    rfl

/-- Witness for C5: two back-to-back calls 40 ms apart: the second waits
exactly 60 ms and stamps `lastRequestTime` at its gate. -/
theorem rate_limit_gate_spec_witness :
    (request ⟨30000, 2, 100⟩ ⟨1000, 5⟩ 1040
        (fun _ => .resp 200 "OK" (some ⟨none, "payload"⟩)) (fun _ => 0)).rateWait = 60 ∧
    (request ⟨30000, 2, 100⟩ ⟨1000, 5⟩ 1040
        (fun _ => .resp 200 "OK" (some ⟨none, "payload"⟩))
        (fun _ => 0)).finalState.lastRequestTime = 1100 ∧
    (request ⟨30000, 2, 100⟩ ⟨1000, 5⟩ 1040
        (fun _ => .resp 200 "OK" (some ⟨none, "payload"⟩))
        (fun _ => 0)).attemptTimes.head? = some 1100 := by
  have h := rate_limit_gate_spec ⟨30000, 2, 100⟩ ⟨1000, 5⟩ 1040
    (fun _ => .resp 200 "OK" (some ⟨none, "payload"⟩)) (fun _ => 0)
  refine ⟨?_, ?_, ?_⟩
  · have := h.2.1 (by decide)
    rw [this]
    decide
  · have hw := h.2.1 (by decide)
    have := h.2.2.2.1
    rw [this, hw]
    decide
  · have hw := h.2.1 (by decide)
    have h5 := h.2.2.2.2
    rw [h5, h.2.2.2.1, hw]
    decide

/-- C7: the connectivity probe never propagates a failure of its underlying
request: it returns `true` exactly when the request succeeded and `false`
exactly when it failed (for any failure: network error, timeout or API
error of any status), and on failure it logs the encountered error. -/
theorem probe_swallows_all_failures (cfg : FireflyConfig) (st : ClientState)
    (now : Int) (env : Nat → FetchOutcome) (dur : Nat → Nat) :
    ((testConnection cfg st now env dur).1 = true
        ↔ ∃ d, (request cfg st now env dur).outcome = .ok d) ∧
    ((testConnection cfg st now env dur).1 = false
        ↔ ∃ e, (request cfg st now env dur).outcome = .fail e) ∧
    ((testConnection cfg st now env dur).1 = false →
      (testConnection cfg st now env dur).2.2 ≠ []) := by
  unfold testConnection
  cases hr : (request cfg st now env dur).outcome with
  | ok d => simp [hr]
  | fail e => cases e <;> simp [hr]

/-- Witness for C7: probing an unreachable host yields `false` plus a log
line, without raising. -/
theorem probe_swallows_all_failures_witness :
    (testConnection ⟨30000, 2, 100⟩ ⟨0, 0⟩ 1000
        (fun _ => .netFail "connection refused") (fun _ => 0)).1 = false ∧
    (testConnection ⟨30000, 2, 100⟩ ⟨0, 0⟩ 1000
        (fun _ => .netFail "connection refused") (fun _ => 0)).2.2 ≠ [] := by
  have h := probe_swallows_all_failures ⟨30000, 2, 100⟩ ⟨0, 0⟩ 1000
    (fun _ => .netFail "connection refused") (fun _ => 0)
  have hfail : (request ⟨30000, 2, 100⟩ ⟨0, 0⟩ 1000
      (fun _ => .netFail "connection refused") (fun _ => 0)).outcome
      = .fail (.err "connection refused") := by decide
  have hfalse := h.2.1.mpr ⟨_, hfail⟩
  exact ⟨hfalse, h.2.2 hfalse⟩

/-- C8: the bulk importer records a failed item as exactly one counted
failure and keeps processing every remaining item — items before and after
a failure contribute their own counts unchanged, the batch is never
aborted — and the final summary satisfies `created + errors = total`. -/
theorem import_counts_failures_and_continues :
    (∀ results : List Outcome,
      (importCategories results).created + (importCategories results).errors
        = results.length) ∧
    (∀ (xs ys : List Outcome) (e : FireflyError),
      (importCategories (xs ++ .fail e :: ys)).created
          = (importCategories xs).created + (importCategories ys).created ∧
      (importCategories (xs ++ .fail e :: ys)).errors
          = (importCategories xs).errors + 1 + (importCategories ys).errors) := by
  refine ⟨importCategories_total, ?_⟩
  intro xs ys e
  obtain ⟨h1, h2⟩ := importCategories_append xs (.fail e :: ys)
  have h3 := importCategories_foldl ys (importStep { created := 0, errors := 0 } (.fail e))
  simp only [importStep] at h3
  constructor
  · rw [h1]
    have : (importCategories (.fail e :: ys)).created = (importCategories ys).created := by
      simp only [importCategories, List.foldl_cons] at *
      simp only [importStep] at *
      omega
    omega
  · rw [h2]
    have : (importCategories (.fail e :: ys)).errors = 1 + (importCategories ys).errors := by
      simp only [importCategories, List.foldl_cons] at *
      simp only [importStep] at *
      omega
    omega

/-- Counterexample to C1 as stated: with `timeout = 30000`,
`retryAttempts = 1`, `retryDelay = 5` and both attempts failing at network
level, the second attempt is dispatched 5 ms after the abort signal's timer
started, so its remaining budget is 29995 ms — the attempts do NOT each get
a fresh deadline equal to the full configured timeout. -/
theorem per_attempt_full_timeout_budget_false :
    (request ⟨30000, 1, 5⟩ ⟨0, 0⟩ 1000
        (fun _ => .netFail "TimeoutError: signal timed out") (fun _ => 0)).attemptTimes
        = [1000, 1005] ∧
    (request ⟨30000, 1, 5⟩ ⟨0, 0⟩ 1000
        (fun _ => .netFail "TimeoutError: signal timed out") (fun _ => 0)).signalDeadline
        = 31000 ∧
    ¬ (∀ t ∈ (request ⟨30000, 1, 5⟩ ⟨0, 0⟩ 1000
          (fun _ => .netFail "TimeoutError: signal timed out") (fun _ => 0)).attemptTimes,
        (request ⟨30000, 1, 5⟩ ⟨0, 0⟩ 1000
          (fun _ => .netFail "TimeoutError: signal timed out") (fun _ => 0)).signalDeadline - t
          = (30000 : Int)) := by
  refine ⟨by decide, by decide, ?_⟩
  intro hall
  exact absurd (hall 1005 (by decide)) (by decide)

/-- C1 amended: one abort deadline equal to `gateTime + timeout` is created
per `execute` call when the request configuration is built, and that single
deadline is shared by every retry attempt: attempt dispatched at time `t`
has remaining budget `timeout - (t - gateTime)` (the full timeout only for
the first attempt, which starts at the gate).  Deadline expiry surfaces as
a rejected fetch, which is classified as a retryable network-level failure,
never as an API error. -/
theorem timeout_deadline_created_once_per_call (cfg : FireflyConfig)
    (st : ClientState) (now : Int) (env : Nat → FetchOutcome) (dur : Nat → Nat) :
    (request cfg st now env dur).signalDeadline
        = (request cfg st now env dur).gateTime + (cfg.timeout : Int) ∧
    (request cfg st now env dur).attemptTimes.head?
        = some (request cfg st now env dur).gateTime ∧
    (∀ t ∈ (request cfg st now env dur).attemptTimes,
      (request cfg st now env dur).gateTime ≤ t ∧
      (request cfg st now env dur).signalDeadline - t
        = (cfg.timeout : Int) - (t - (request cfg st now env dur).gateTime)) ∧
    (∀ m, retryableOutcome (.netFail m) = true ∧ isClientError (.err m) = false) := by
  refine ⟨rfl, request_head_time cfg st now env dur, ?_, ?_⟩
  · intro t ht
    refine ⟨request_times_ge cfg st now env dur t ht, ?_⟩
    have hd : (request cfg st now env dur).signalDeadline
        = (request cfg st now env dur).gateTime + (cfg.timeout : Int) := rfl
    omega
  · intro m
    exact ⟨rfl, rfl⟩

/-- Witness for C1 amended: at the concrete run of the counterexample, the
second attempt (dispatched at 1005) has budget `30000 - 5`. -/
theorem timeout_deadline_created_once_per_call_witness :
    (request ⟨30000, 1, 5⟩ ⟨0, 0⟩ 1000
        (fun _ => .netFail "TimeoutError: signal timed out") (fun _ => 0)).signalDeadline
        - 1005 = (30000 : Int) - (1005 - 1000) := by
  have h := timeout_deadline_created_once_per_call ⟨30000, 1, 5⟩ ⟨0, 0⟩ 1000
    (fun _ => .netFail "TimeoutError: signal timed out") (fun _ => 0)
  have h2 := (h.2.2.1 1005 (by decide)).2
  have hg : (request ⟨30000, 1, 5⟩ ⟨0, 0⟩ 1000
      (fun _ => .netFail "TimeoutError: signal timed out") (fun _ => 0)).gateTime
      = 1000 := by decide
  rw [hg] at h2
  exact h2

/-- Counterexample to C2 as stated: with `retryAttempts = 0` and the single
attempt failing at network level (no HTTP response), the session counter
stays at 0 even though one dispatch attempt was made — the counter is NOT
incremented on attempts that obtain no response. -/
theorem counter_per_attempt_false :
    (request ⟨30000, 0, 100⟩ ⟨0, 0⟩ 1000
        (fun _ => .netFail "connection refused") (fun _ => 0)).dispatched.length = 1 ∧
    (request ⟨30000, 0, 100⟩ ⟨0, 0⟩ 1000
        (fun _ => .netFail "connection refused") (fun _ => 0)).finalState.requestCount = 0 ∧
    (request ⟨30000, 0, 100⟩ ⟨0, 0⟩ 1000
        (fun _ => .netFail "connection refused") (fun _ => 0)).finalState.requestCount
      ≠ (request ⟨30000, 0, 100⟩ ⟨0, 0⟩ 1000
        (fun _ => .netFail "connection refused") (fun _ => 0)).dispatched.length := by
  refine ⟨by decide, by decide, by decide⟩

/-- C2 amended: per `execute` call the session request counter grows by
exactly the number of dispatch attempts that obtained an HTTP response
(of any status); attempts that fail at network level (connection refused,
timeout expiry — the fetch promise rejects before the increment runs) do
not increment it. -/
theorem counter_counts_responses_only (cfg : FireflyConfig) (st : ClientState)
    (now : Int) (env : Nat → FetchOutcome) (dur : Nat → Nat) :
    (request cfg st now env dur).finalState.requestCount
      = st.requestCount
        + ((request cfg st now env dur).dispatched.countP (fun o => isResp o)) :=
  request_count_eq cfg st now env dur

/-- Counterexample to C9's second conjunct as stated: in a call whose two
attempts are dispatched at 1000 and 1005, the stored `lastRequestTime`
stays 1000 — it does not reflect the most recent dispatch attempt. -/
theorem timestamp_tracks_last_attempt_false :
    (request ⟨30000, 1, 5⟩ ⟨0, 5⟩ 1000
        (fun _ => .netFail "connection reset") (fun _ => 0)).attemptTimes.getLast?
        = some 1005 ∧
    (request ⟨30000, 1, 5⟩ ⟨0, 5⟩ 1000
        (fun _ => .netFail "connection reset") (fun _ => 0)).finalState.lastRequestTime
        = 1000 ∧
    (request ⟨30000, 1, 5⟩ ⟨0, 5⟩ 1000
        (fun _ => .netFail "connection reset") (fun _ => 0)).finalState.lastRequestTime
      ≠ ((request ⟨30000, 1, 5⟩ ⟨0, 5⟩ 1000
        (fun _ => .netFail "connection reset") (fun _ => 0)).attemptTimes.getLast?.getD 0) := by
  refine ⟨by decide, by decide, by decide⟩

/-- C9 amended: the session request counter is monotonically non-decreasing
under every engine operation (`execute`, connectivity probe, stats query),
and the last-request timestamp reflects the gate time of the most recent
`execute` call — the dispatch time of that call's FIRST attempt, recorded
once before the retry loop — rather than the most recent individual retry
attempt. -/
theorem session_counters_invariant (cfg : FireflyConfig) (st : ClientState) :
    (∀ op : ClientOp, st.requestCount ≤ (stepClient cfg st op).requestCount) ∧
    (∀ (now : Int) (env : Nat → FetchOutcome) (dur : Nat → Nat),
      (request cfg st now env dur).attemptTimes.head?
        = some ((request cfg st now env dur).finalState.lastRequestTime)) := by
  constructor
  · intro op
    cases op with
    | execute now env dur =>
      simp only [stepClient]
      rw [request_count_eq]
      omega
    | probe now env dur =>
      simp only [stepClient]
      have hst : (testConnection cfg st now env dur).2.1
          = (request cfg st now env dur).finalState := by
        unfold testConnection
        cases hr : (request cfg st now env dur).outcome with
        | ok d => simp [hr]
        | fail e => cases e <;> simp [hr]
      rw [hst, request_count_eq]
      omega
    | stats => exact le_refl _
  · intro now env dur
    rw [request_head_time]
    rfl
